import Mathlib

/-!
Verification of the position-reconciliation trading loop in `src/app.py`
(single-file Flask/trading application for BTC-USDT-SWAP on OKX).

The Python source is shallowly embedded below.  Python floats are modelled
as `ℚ`; optional / possibly-absent JSON and API fields are modelled as
`Option ℚ` (an absent key or an empty string maps to `none`, a numeric
string like "0" maps to `some 0`, matching the truthiness behaviour of the
`a or b` fallback chains used by the source); fallible code returns
`Option`.  Each definition names the `app.py` function it embeds.
-/

namespace App

/-! ## Bounded histories

`app.py` lines 657-659 and 743-745 maintain the global `price_history`
(bound 20) and `signal_history` (bound 30) by `append` followed by
`pop(0)` when the length exceeds the bound. -/

/-- `history.append(x); if len(history) > bound: history.pop(0)` -/
def pushBounded (bound : ℕ) (h : List α) (x : α) : List α :=
  let h2 := h ++ [x]
  if bound < h2.length then h2.tail else h2

/-! ## Trading configuration

`trading_config` (lines 321-330): only the fields the embedded functions
read are retained. -/

structure TradingConfig where
  /-- `trading_config['amount']`, the configured order size (0.01). -/
  amount : ℚ
  /-- `trading_config['leverage']`. -/
  leverage : ℚ
  /-- `trading_config['test_mode']`. -/
  testMode : Bool
deriving Repr, DecidableEq

/-! ## Position Oracle: `get_current_position` (lines 538-646) -/

/-- One entry of `balance_response['data'][0]['details']`.  Numeric API
fields arrive as strings; empty/absent map to `none`. -/
structure BalanceDetail where
  ccy : String
  availBal : Option ℚ
  availEq : Option ℚ
  eq : Option ℚ
  bal : Option ℚ
  frozenBal : Option ℚ
deriving Repr, DecidableEq

/-- `balance_response['data'][0]`. -/
structure AccountData where
  details : List BalanceDetail
  availEq : Option ℚ
  eqUsd : Option ℚ
deriving Repr, DecidableEq

/-- One entry of `response['data']` from `private_get_account_positions`. -/
structure RawPos where
  instId : String
  pos : Option ℚ
  avgPx : Option ℚ
  upl : Option ℚ
  lever : Option ℚ
  markPx : Option ℚ
  imr : Option ℚ
  mmr : Option ℚ
  liqPx : Option ℚ
  mgnRatio : Option ℚ
deriving Repr, DecidableEq

/-- The open-position dictionary returned by `get_current_position`
(lines 621-636). -/
structure PositionInfo where
  side : String
  size : ℚ
  entryPrice : ℚ
  markPrice : ℚ
  unrealizedPnl : ℚ
  positionAmt : ℚ
  leverage : ℚ
  initialMargin : ℚ
  maintMargin : ℚ
  maintMarginRatio : ℚ
  liquidationPrice : ℚ
  totalBalance : ℚ
  freeBalance : ℚ
deriving Repr, DecidableEq

/-- `get_current_position` returns one of two dictionary shapes: a full
open-position record, or (lines 640-643) an account-info-only record
carrying just the two balances. -/
inductive PosFetch where
  | openPos (p : PositionInfo)
  | accountOnly (totalBalance freeBalance : ℚ)
deriving Repr, DecidableEq

/-- Lines 564-578: scan `details` for the first `ccy == 'USDT'` entry and
resolve `(free_balance, total_balance)` through the
`availBal or availEq or eq` / `bal or eq or frozenBal` fallback chains
(with `detail.get(key, 0)` as the final default). -/
def resolveDetailBalances : List BalanceDetail → ℚ × ℚ
  | [] => (0, 0)
  | d :: rest =>
    if d.ccy = "USDT" then
      let availB : Option ℚ := d.availBal <|> d.availEq <|> d.eq
      let totalB : Option ℚ := d.bal <|> d.eq <|> d.frozenBal
      (match availB with
        | some v => v
        | none => (d.availBal).getD 0,
       match totalB with
        | some v => v
        | none => (d.bal).getD 0)
    else resolveDetailBalances rest

/-- Lines 564-588: detail-level resolution followed by the account-level
fallbacks `availEq` (when `free_balance == 0`) and `eqUsd` (when
`total_balance == 0`). -/
def resolveBalances (acct : AccountData) : ℚ × ℚ :=
  let fb0 := (resolveDetailBalances acct.details).1
  let tb0 := (resolveDetailBalances acct.details).2
  let fb := if fb0 = 0 then (match acct.availEq with | some v => v | none => fb0) else fb0
  let tb := if tb0 = 0 then (match acct.eqUsd with | some v => v | none => tb0) else tb0
  (fb, tb)

/-- Lines 590-636: the first positions entry with
`instId == 'BTC-USDT-SWAP'` and `abs(pos) > 0` yields the full position
dictionary; entries with zero size or a different `instId` are skipped. -/
def findOpenPosition (cfg : TradingConfig) (tb fb : ℚ) :
    List RawPos → Option PositionInfo
  | [] => none
  | pd :: rest =>
    if pd.instId = "BTC-USDT-SWAP" then
      let p := (pd.pos).getD 0
      if 0 < |p| then
        let entry := (pd.avgPx).getD 0
        let r := (pd.mgnRatio).getD 0
        some { side := if 0 < p then "long" else "short"
               size := |p|
               entryPrice := entry
               markPrice := (pd.markPx).getD entry
               unrealizedPnl := (pd.upl).getD 0
               positionAmt := p
               leverage := (pd.lever).getD cfg.leverage
               initialMargin := (pd.imr).getD 0
               maintMargin := (pd.mmr).getD 0
               maintMarginRatio := if 0 < r then r * 100 else r
               liquidationPrice := (pd.liqPx).getD 0
               totalBalance := tb
               freeBalance := fb }
      else findOpenPosition cfg tb fb rest
    else findOpenPosition cfg tb fb rest

/-- `get_current_position` (lines 538-646).  `posResp = none` models a
failed/empty positions response (lines 549-551), `balResp = none` or an
empty data list models a failed balance response (lines 557-559); both
raise and are caught at line 644, returning `None`.  Otherwise the
balances are resolved and either the first matching open position or the
account-info-only record is returned. -/
def getCurrentPosition (cfg : TradingConfig) (posResp : Option (List RawPos))
    (balResp : Option (List AccountData)) : Option PosFetch :=
  match posResp with
  | none => none
  | some positionsData =>
    match balResp with
    | none => none
    | some [] => none
    | some (acct :: _) =>
      let fb := (resolveBalances acct).1
      let tb := (resolveBalances acct).2
      match findOpenPosition cfg tb fb positionsData with
      | some p => some (.openPos p)
      | none => some (.accountOnly tb fb)

/-! ## JSON values and `json.loads`

`analyze_with_deepseek` (lines 732-740) slices the reply between the
first opening brace and the last closing brace and feeds the slice to
`json.loads`.  The stdlib parser is modelled by a fuel-based
recursive-descent parser for the JSON fragment the application exchanges
(objects, arrays, strings with the common escapes, decimal numbers,
`true`/`false`/`null`); duplicate object keys keep the last value, as in
Python. -/

inductive Json where
  | str (s : String)
  | num (q : ℚ)
  | bool (b : Bool)
  | null
  | arr (xs : List Json)
  | obj (o : List (String × Json))
deriving Repr

/-- A parsed JSON object / Python dict: ordered key-value pairs with
unique keys. -/
abbrev JsonObj := List (String × Json)

/-- Python dict lookup `d[k]` (as an `Option`; `none` models `KeyError`). -/
def jLookup : JsonObj → String → Option Json
  | [], _ => none
  | (k', v) :: rest, k => if k' = k then some v else jLookup rest k

/-- Python dict assignment `d[k] = v`: replace in place when the key
exists, append otherwise. -/
def setKey (o : JsonObj) (k : String) (v : Json) : JsonObj :=
  if o.any (fun p => p.1 == k) then
    o.map (fun p => if p.1 == k then (k, v) else p)
  else o ++ [(k, v)]

/-- Skip JSON whitespace. -/
def skipWs : List Char → List Char
  | c :: rest =>
    if c = ' ' ∨ c = '\n' ∨ c = '\t' ∨ c = '\r' then skipWs rest else c :: rest
  | [] => []

/-- Body of a JSON string literal after the opening quote; returns the
decoded characters and the remainder after the closing quote. -/
def parseStringBody : List Char → Option (List Char × List Char)
  | [] => none
  | c :: rest =>
    if c = '\"' then some ([], rest)
    else if c = '\\' then
      match rest with
      | [] => none
      | e :: rest2 =>
        let dec : Option Char :=
          if e = '\"' then some '\"'
          else if e = '\\' then some '\\'
          else if e = '/' then some '/'
          else if e = 'n' then some '\n'
          else if e = 't' then some '\t'
          else if e = 'r' then some '\r'
          else none
        match dec with
        | none => none
        | some ch => (parseStringBody rest2).map (fun p => (ch :: p.1, p.2))
    else (parseStringBody rest).map (fun p => (c :: p.1, p.2))

/-- Numeric value of a digit string. -/
def digitsVal (ds : List Char) : ℕ :=
  ds.foldl (fun a c => a * 10 + (c.toNat - 48)) 0

/-- A JSON number: optional minus, integer part, optional fraction. -/
def parseNumber (l : List Char) : Option (ℚ × List Char) :=
  let neg := match l with | '-' :: _ => true | _ => false
  let l1 := match l with | '-' :: r => r | _ => l
  let ds := l1.takeWhile (fun c => c.isDigit)
  let r1 := l1.dropWhile (fun c => c.isDigit)
  if ds.isEmpty then none
  else
    match r1 with
    | '.' :: r2 =>
      let fs := r2.takeWhile (fun c => c.isDigit)
      let r3 := r2.dropWhile (fun c => c.isDigit)
      if fs.isEmpty then none
      else
        let q : ℚ := (digitsVal ds : ℚ) + (digitsVal fs : ℚ) / ((10 : ℚ) ^ fs.length)
        some (if neg then -q else q, r3)
    | _ => some (if neg then -(digitsVal ds : ℚ) else (digitsVal ds : ℚ), r1)

mutual

/-- One JSON value (fuel-based recursive descent). -/
def parseVal : ℕ → List Char → Option (Json × List Char)
  | 0, _ => none
  | fuel + 1, l =>
    match skipWs l with
    | '\x7b' :: rest =>
      match skipWs rest with
      | '\x7d' :: r2 => some (.obj [], r2)
      | _ => parseMembers fuel (skipWs rest) []
    | '[' :: rest =>
      match skipWs rest with
      | ']' :: r2 => some (.arr [], r2)
      | _ => parseItems fuel (skipWs rest) []
    | '\"' :: rest => (parseStringBody rest).map (fun p => (.str (String.mk p.1), p.2))
    | 't' :: 'r' :: 'u' :: 'e' :: rest => some (.bool true, rest)
    | 'f' :: 'a' :: 'l' :: 's' :: 'e' :: rest => some (.bool false, rest)
    | 'n' :: 'u' :: 'l' :: 'l' :: rest => some (.null, rest)
    | l2 => (parseNumber l2).map (fun p => (.num p.1, p.2))

/-- Members of a JSON object after the opening brace. -/
def parseMembers : ℕ → List Char → JsonObj → Option (Json × List Char)
  | 0, _, _ => none
  | fuel + 1, l, acc =>
    match skipWs l with
    | '\"' :: rest =>
      match parseStringBody rest with
      | none => none
      | some (k, r1) =>
        match skipWs r1 with
        | ':' :: r2 =>
          match parseVal fuel r2 with
          | none => none
          | some (v, r3) =>
            match skipWs r3 with
            | ',' :: r4 => parseMembers fuel r4 (setKey acc (String.mk k) v)
            | '\x7d' :: r4 => some (.obj (setKey acc (String.mk k) v), r4)
            | _ => none
        | _ => none
    | _ => none

/-- Items of a JSON array after the opening bracket. -/
def parseItems : ℕ → List Char → List Json → Option (Json × List Char)
  | 0, _, _ => none
  | fuel + 1, l, acc =>
    match parseVal fuel l with
    | none => none
    | some (v, r1) =>
      match skipWs r1 with
      | ',' :: r2 => parseItems fuel r2 (acc ++ [v])
      | ']' :: r2 => some (.arr (acc ++ [v]), r2)
      | _ => none

end

/-- `json.loads` on a character list: parse one value, allow trailing
whitespace only. -/
def jsonLoads (l : List Char) : Option Json :=
  match parseVal (2 * l.length + 4) l with
  | some (v, rest) => if skipWs rest = [] then some v else none
  | none => none

/-- Python `str.find(c)`: index of the first occurrence. -/
def strFind : List Char → Char → Option ℕ
  | [], _ => none
  | x :: rest, c => if x = c then some 0 else (strFind rest c).map (· + 1)

/-- Python `str.rfind(c)`: index of the last occurrence. -/
def strRfind (l : List Char) (c : Char) : Option ℕ :=
  (strFind l.reverse c).map (fun i => l.length - 1 - i)

/-- Lines 732-740 of `analyze_with_deepseek`: locate the first opening
brace and the last closing brace of the reply, slice, `json.loads` the
slice.  Any failure — no span (`start_idx == -1 or end_idx == 0`), the
slice is not valid JSON, or the parsed value is not an object (the
`signal_data['timestamp'] = ...` assignment would raise) — yields `none`
(the function returns `None`).  No field of the parsed object is
validated. -/
def parseSignalReply (r : String) : Option JsonObj :=
  let l := r.toList
  match strFind l '\x7b', strRfind l '\x7d' with
  | some s, some e0 =>
    let jsonStr := (l.drop s).take (e0 + 1 - s)
    match jsonLoads jsonStr with
    | some (.obj o) => some o
    | _ => none
  | _, _ => none

/-! ## Market Snapshot Provider: `get_btc_ohlcv` (lines 478-536) -/

/-- One OHLCV row after the numeric conversion of lines 508-515. -/
structure Candle where
  ts : ℤ
  openPrice : ℚ
  high : ℚ
  low : ℚ
  close : ℚ
  volume : ℚ
deriving Repr, DecidableEq

/-- The price-observation dictionary returned by `get_btc_ohlcv`
(lines 524-533). -/
structure PriceData where
  price : ℚ
  timestamp : String
  high : ℚ
  low : ℚ
  volume : ℚ
  timeframe : String
  priceChange : ℚ
  klineData : List Candle
deriving Repr, DecidableEq

/-- `get_btc_ohlcv` (lines 478-536).  `raw` is `response['data']` in the
exchange's newest-first order (`none` models a failed/absent response,
line 502-503); the code reverses it into chronological order, takes the
last bar as current and the second-to-last as previous when it exists
(the current bar itself otherwise, line 522), and computes
`price_change = (close_t - close_prev) / close_prev * 100` (line 531).
A zero previous close raises `ZeroDivisionError`, caught at line 534
(`none`).  `kline_data` is the last five chronological bars. -/
def getBtcOhlcv (raw : Option (List Candle)) (timeframe now : String) :
    Option PriceData :=
  match raw with
  | none => none
  | some data =>
    if data.isEmpty then none
    else
      let ohlcv := data.reverse
      match ohlcv.getLast? with
      | none => none
      | some cur =>
        let prev := if 1 < ohlcv.length then (ohlcv[ohlcv.length - 2]?).getD cur else cur
        if prev.close = 0 then none
        else some
          { price := cur.close
            timestamp := now
            high := cur.high
            low := cur.low
            volume := cur.volume
            timeframe := timeframe
            priceChange := (cur.close - prev.close) / prev.close * 100
            klineData := ohlcv.drop (ohlcv.length - 5) }

/-! ## Reconciler/Executor: `execute_trade` (lines 786-829) and
`create_market_order_safe` (lines 752-784) -/

/-- The parameters of one order submitted through
`create_market_order_safe`: `side`, `sz` and the `reduceOnly` flag
(lines 757-767). -/
structure Order where
  side : String
  sz : ℚ
  reduceOnly : Bool
deriving Repr, DecidableEq

/-- How an `execute_trade` call ends: normally; with an exception raised
inside the `try` of line 802 and caught at line 828 (the cycle
continues); or with an exception raised before the `try` that propagates
to the caller. -/
inductive ExecStatus where
  | ok
  | caughtError
  | crashed
deriving Repr, DecidableEq

/-- `True` iff the looked-up dict value is the given string (Python
`d[k] == s`, where a missing key is distinguished). -/
def jStrEq (v : Option Json) (s : String) : Bool :=
  match v with
  | some (.str t) => t == s
  | _ => false

/-- `execute_trade` (lines 786-829), with the exchange collaborator
initialized and every submitted order accepted (`create_market_order_safe`
returns a receipt with `status: 'filled'`).  The result lists the orders
submitted during the call, in submission order.

Control flow embedded from the source: the log statements of lines
794-796 read `signal_data['signal']`, `['confidence']` and `['reason']`
before the `try`, so a missing key there crashes the call; `test_mode`
returns before any order (line 798-800); for BUY (SELL) the guard
`current_position and current_position['side'] == 'short'` (`== 'long'`)
selects a reduce-only close, while `None` and every other side fall to
the opening branch of size `trading_config['amount']`; a balances-only
dict (flat position) has no `'side'` key, so the guard raises `KeyError`,
caught at line 828 with no order submitted. -/
def executeTrade (cfg : TradingConfig) (sig : JsonObj) (pos : Option PosFetch) :
    List Order × ExecStatus :=
  if (jLookup sig "signal").isNone ∨ (jLookup sig "confidence").isNone ∨
      (jLookup sig "reason").isNone then
    ([], .crashed)
  else if cfg.testMode then ([], .ok)
  else if jStrEq (jLookup sig "signal") "BUY" then
    match pos with
    | some (.openPos p) =>
      if p.side = "short" then ([⟨"buy", |p.size|, true⟩], .ok)
      else ([⟨"buy", cfg.amount, false⟩], .ok)
    | some (.accountOnly _ _) => ([], .caughtError)
    | none => ([⟨"buy", cfg.amount, false⟩], .ok)
  else if jStrEq (jLookup sig "signal") "SELL" then
    match pos with
    | some (.openPos p) =>
      if p.side = "long" then ([⟨"sell", p.size, true⟩], .ok)
      else ([⟨"sell", cfg.amount, false⟩], .ok)
    | some (.accountOnly _ _) => ([], .caughtError)
    | none => ([⟨"sell", cfg.amount, false⟩], .ok)
  else ([], .ok)

/-! ## Ledger: trade statistics -/

/-- The persisted counters record of `trade_stats.json`
(lines 201-206). -/
structure TradeStats where
  totalTrades : ℕ
  winningTrades : ℕ
  losingTrades : ℕ
  lastUpdated : Option String
deriving Repr, DecidableEq

/-- `save_trade_stats` (lines 222-242): stamp `last_updated` and write
the record out; the counters themselves are not touched. -/
def saveTradeStats (stats : TradeStats) (now : String) : TradeStats :=
  { stats with lastUpdated := some now }

/-- `execute_trade` together with the trade-statistics state: the body of
`execute_trade` (lines 786-829) contains no read or write of the
persisted counters, so they pass through unchanged. -/
def executeTradeWithStats (cfg : TradingConfig) (sig : JsonObj)
    (pos : Option PosFetch) (stats : TradeStats) :
    (List Order × ExecStatus) × TradeStats :=
  (executeTrade cfg sig pos, stats)

/-- One entry of the exchange's closed-position history as consumed by
`get_signal_accuracy` (lines 1529-1542): `closeAvgPx = none` models an
absent or empty `closeAvgPx` (position not closed), `realizedPnl = none`
an absent/empty `realizedPnl` (treated as `0.0`). -/
structure HistPos where
  closeAvgPx : Option ℚ
  realizedPnl : Option ℚ
deriving Repr, DecidableEq

/-- Loop body of lines 1529-1542: a position with a close price counts
one trade; the sign of its realized PnL decides winning/losing. -/
def tallyStep (acc : ℕ × ℕ × ℕ) (p : HistPos) : ℕ × ℕ × ℕ :=
  match p.closeAvgPx with
  | none => acc
  | some _ =>
    let pnl := (p.realizedPnl).getD 0
    (acc.1 + 1,
     (if 0 < pnl then acc.2.1 + 1 else acc.2.1,
      if pnl < 0 then acc.2.2 + 1 else acc.2.2))

/-- Lines 1529-1542: `(total_trades, winning_trades, losing_trades)`
tallied over the exchange's position history. -/
def tallyTrades (ps : List HistPos) : ℕ × ℕ × ℕ :=
  ps.foldl tallyStep (0, 0, 0)

/-! ## Signal Generator: `analyze_with_deepseek` (lines 648-750) -/

/-- The outcome of one `analyze_with_deepseek` call: the two global
histories after the call, the returned signal (`none` for `return None`),
and whether the call raised an uncaught exception (in which case no
signal reaches the caller either). -/
structure AnalyzeResult where
  priceHistory : List PriceData
  signalHistory : List JsonObj
  signal : Option JsonObj
  crashed : Bool
deriving Repr

/-- `analyze_with_deepseek` (lines 648-750).

* `client` — whether `deepseek_client` is configured (line 653);
* `ph`, `sh` — the global `price_history` and `signal_history`;
* `posFetch` — the result of the internal `get_current_position()` call
  (line 684);
* `reply` — the inference reply text, `none` modelling an exception
  from the API call itself.

Embedded control flow: without a client the call returns immediately
(lines 653-655); otherwise the observation is appended to
`price_history` (bound 20, lines 657-659) before anything else.  The
prompt construction then divides by `kline['open']` for each bar of
`kline_data` (line 665) and by the 5-period SMA (line 672), and reads
`current_pos['side']` on the position dict (line 685) — a zero
denominator or a balances-only (flat) position dict raises an uncaught
exception at this point, after the history append.  Inside the `try`
(lines 722-750), an API failure or an unparseable reply returns `None`;
on success the timestamp is stamped into the parsed object and it is
appended to `signal_history` (bound 30, lines 742-745). -/
def analyzeWithDeepseek (client : Bool) (ph : List PriceData)
    (sh : List JsonObj) (pd : PriceData) (posFetch : Option PosFetch)
    (reply : Option String) : AnalyzeResult :=
  if client = false then ⟨ph, sh, none, false⟩
  else
    let ph2 := pushBounded 20 ph pd
    if pd.klineData.any (fun k => k.openPrice == 0) then ⟨ph2, sh, none, true⟩
    else if 5 ≤ ph2.length ∧
        ((ph2.drop (ph2.length - 5)).map (fun d => d.price)).sum = 0 then
      ⟨ph2, sh, none, true⟩
    else
      match posFetch with
      | some (.accountOnly _ _) => ⟨ph2, sh, none, true⟩
      | _ =>
        match reply with
        | none => ⟨ph2, sh, none, false⟩
        | some r =>
          match parseSignalReply r with
          | none => ⟨ph2, sh, none, false⟩
          | some o =>
            let sig := setKey o "timestamp" (.str pd.timestamp)
            ⟨ph2, pushBounded 30 sh sig, some sig, false⟩

/-! ## Drawdown statistics: `get_equity_curve` (lines 1820-1839) -/

/-- The drawdown at balance `b` against running maximum `m`
(line 1828): zero when the running maximum is not positive. -/
def ddOf (m b : ℚ) : ℚ :=
  if 0 < m then (b - m) / m * 100 else 0

/-- One iteration of the loop of lines 1824-1830 over the accumulator
`(max_balance_seen, max_drawdown)`. -/
def ddStep (acc : ℚ × ℚ) (b : ℚ) : ℚ × ℚ :=
  let m2 := if acc.1 < b then b else acc.1
  let dd := ddOf m2 b
  (m2, if dd < acc.2 then dd else acc.2)

/-- The running-maximum value after each element of the series, starting
from `max_balance_seen = m` (the loop of lines 1824-1830 updates the
maximum before computing the drawdown). -/
def mTrace (m : ℚ) : List ℚ → List ℚ
  | [] => []
  | b :: rest =>
    let m2 := if m < b then b else m
    m2 :: mTrace m2 rest

/-- The drawdown computed at each element of the series (line 1828). -/
def ddTrace (m : ℚ) : List ℚ → List ℚ
  | [] => []
  | b :: rest =>
    let m2 := if m < b then b else m
    ddOf m2 b :: ddTrace m2 rest

/-- Lines 1820-1837: `max_balance_seen` starts at the first recorded
balance, `max_drawdown` at 0; the loop folds `ddStep` over the whole
series; the live balance `current` is then folded in the same way
(lines 1832-1837). -/
def maxDrawdownCalc (eqData : List ℚ) (current : ℚ) : ℚ :=
  match eqData with
  | [] => 0
  | b0 :: _ =>
    let p := eqData.foldl ddStep (b0, 0)
    let m2 := if p.1 < current then current else p.1
    let cdd := ddOf m2 current
    if cdd < p.2 then cdd else p.2

/-! ## Concrete sample values used by witnesses and counterexamples -/

/-- A well-formed signal dict carrying the three keys `execute_trade`
reads. -/
def mkSignal (s reason conf : String) : JsonObj :=
  [("signal", .str s), ("reason", .str reason), ("confidence", .str conf)]

/-- A live (non-test) configuration with the source's order size 0.01. -/
def liveCfg : TradingConfig := { amount := 1/100, leverage := 10, testMode := false }

/-- An open long position of size 2. -/
def longPos2 : PositionInfo :=
  { side := "long", size := 2, entryPrice := 50000, markPrice := 50100
    unrealizedPnl := 200, positionAmt := 2, leverage := 10
    initialMargin := 10000, maintMargin := 400, maintMarginRatio := 150
    liquidationPrice := 45500, totalBalance := 20000, freeBalance := 9800 }

/-- An open long position of size 1. -/
def longPos1 : PositionInfo :=
  { side := "long", size := 1, entryPrice := 50000, markPrice := 50100
    unrealizedPnl := 100, positionAmt := 1, leverage := 10
    initialMargin := 5000, maintMargin := 200, maintMarginRatio := 150
    liquidationPrice := 45500, totalBalance := 20000, freeBalance := 14900 }

end App

namespace App

/-! ## C1 — reconciliation is NOT idempotent for long + BUY -/

/-- C1 counterexample: with a live configuration, an open long position
of size 2 and a BUY signal of confidence LOW, `execute_trade` submits an
opening market buy order of the configured amount — it does not stand
pat, so the claim "long + BUY issues no order" is false on the code
(lines 803-809: only `side == 'short'` takes the reduce-only branch;
`'long'` falls to the open-long branch). -/
theorem C1_long_buy_issues_order :
    (executeTrade liveCfg (mkSignal "BUY" "up" "LOW") (some (.openPos longPos2))).1 =
      [⟨"buy", 1/100, false⟩] ∧
    (executeTrade liveCfg (mkSignal "BUY" "up" "LOW") (some (.openPos longPos2))).1 ≠ [] := by
  constructor
  · rfl
  · decide

/-- C1 amended: for every open long position (any size) and a BUY signal
(any confidence, any rationale), with test mode off, `execute_trade`
submits exactly one opening market buy order of the configured amount
with `reduce_only = false` — it adds to the long position instead of
treating it as already aligned. -/
theorem C1_long_buy_opens_more (cfg : TradingConfig) (p : PositionInfo)
    (conf reason : String) (hm : cfg.testMode = false) (hs : p.side = "long") :
    executeTrade cfg (mkSignal "BUY" reason conf) (some (.openPos p)) =
      ([⟨"buy", cfg.amount, false⟩], .ok) := by
  simp [executeTrade, mkSignal, jLookup, jStrEq, hm, hs]

/-- Witness for `C1_long_buy_opens_more` at a concrete input. -/
theorem C1_long_buy_opens_more_witness :
    liveCfg.testMode = false ∧ longPos2.side = "long" ∧
    executeTrade liveCfg (mkSignal "BUY" "up" "HIGH") (some (.openPos longPos2)) =
      ([⟨"buy", liveCfg.amount, false⟩], .ok) :=
  ⟨rfl, rfl, C1_long_buy_opens_more liveCfg longPos2 "HIGH" "up" rfl rfl⟩

/-! ## C2 — no same-cycle flip for long + SELL -/

/-- C2: for every open long position and a SELL signal (any confidence,
any rationale), with test mode off, `execute_trade` submits exactly one
order: a reduce-only market sell of the full position size (lines
811-814).  In particular no opening order is submitted in the same
call. -/
theorem C2_long_sell_reduce_only (cfg : TradingConfig) (p : PositionInfo)
    (conf reason : String) (hm : cfg.testMode = false) (hs : p.side = "long") :
    executeTrade cfg (mkSignal "SELL" reason conf) (some (.openPos p)) =
      ([⟨"sell", p.size, true⟩], .ok) ∧
    ∀ o ∈ (executeTrade cfg (mkSignal "SELL" reason conf) (some (.openPos p))).1,
      o.reduceOnly = true := by
  constructor
  · simp [executeTrade, mkSignal, jLookup, jStrEq, hm, hs]
  · intro o ho
    simp [executeTrade, mkSignal, jLookup, jStrEq, hm, hs] at ho
    simp [ho]

/-- Witness for `C2_long_sell_reduce_only` at a concrete input. -/
theorem C2_long_sell_reduce_only_witness :
    liveCfg.testMode = false ∧ longPos2.side = "long" ∧
    executeTrade liveCfg (mkSignal "SELL" "down" "LOW") (some (.openPos longPos2)) =
      ([⟨"sell", longPos2.size, true⟩], .ok) :=
  ⟨rfl, rfl, (C2_long_sell_reduce_only liveCfg longPos2 "LOW" "down" rfl rfl).1⟩

/-! ## C3 — open-from-flat is broken: the flat position dict has no
`'side'` key -/

/-- C3: when the Position Oracle reports no open position,
`get_current_position` returns the balances-only dict (lines 640-643);
`execute_trade` then evaluates `current_position['side']` on it
(line 804) — the dict is truthy but has no `'side'` key, so `KeyError`
is raised inside the `try` and caught at line 828: no order is submitted
for a flat position and a HIGH-confidence BUY, contradicting the
open-from-flat scenario. -/
theorem C3_flat_buy_submits_nothing :
    getCurrentPosition liveCfg (some [])
      (some [{ details := [{ ccy := "USDT", availBal := some 500, availEq := none,
                             eq := none, bal := some 500, frozenBal := none }],
               availEq := none, eqUsd := none }]) =
      some (.accountOnly 500 500) ∧
    executeTrade liveCfg (mkSignal "BUY" "breakout" "HIGH")
      (some (.accountOnly 500 500)) = ([], .caughtError) := by
  constructor
  · rfl
  · rfl

/-! ## C4 — closing submits the order but never touches the counters -/

/-- C4 counterexample: with a live configuration, a long position of
size 1 and a SELL signal, the reduce-only sell of size 1 is submitted,
but the persisted counters are returned untouched: `total_trades` stays
at 3 instead of being incremented to 4 — `execute_trade` (lines 786-829)
contains no counter mutation. -/
theorem C4_close_leaves_stats_unchanged :
    executeTradeWithStats liveCfg (mkSignal "SELL" "tp" "HIGH")
      (some (.openPos longPos1)) ⟨3, 1, 2, none⟩ =
      (([⟨"sell", 1, true⟩], .ok), ⟨3, 1, 2, none⟩) ∧
    (executeTradeWithStats liveCfg (mkSignal "SELL" "tp" "HIGH")
      (some (.openPos longPos1)) ⟨3, 1, 2, none⟩).2.totalTrades ≠ 3 + 1 := by
  constructor
  · rfl
  · decide

/-- Helper: the fold of lines 1529-1542 adds, to any starting
accumulator, the number of closed positions and the numbers of those
with positive / negative realized PnL. -/
theorem tallyTrades_foldl (ps : List HistPos) : ∀ a : ℕ × ℕ × ℕ,
    ps.foldl tallyStep a =
      (a.1 + (ps.filter fun p => p.closeAvgPx.isSome).length,
       a.2.1 + (ps.filter fun p =>
         p.closeAvgPx.isSome && decide (0 < (p.realizedPnl).getD 0)).length,
       a.2.2 + (ps.filter fun p =>
         p.closeAvgPx.isSome && decide ((p.realizedPnl).getD 0 < 0)).length) := by
  induction ps with
  | nil => intro a; simp
  | cons p rest ih =>
    intro a
    cases hc : p.closeAvgPx with
    | none =>
      simp only [List.foldl_cons, List.filter_cons, tallyStep, hc,
        Option.isSome_none, Bool.false_and, Bool.false_eq_true, if_neg,
        reduceIte, ih]
    | some v =>
      simp only [List.foldl_cons, List.filter_cons, tallyStep, hc,
        Option.isSome_some, Bool.true_and, reduceIte, ih]
      rcases lt_trichotomy ((p.realizedPnl).getD 0) 0 with h | h | h
      · have h1 : ¬ (0 < (p.realizedPnl).getD 0) := by linarith
        simp [h, h1]
        omega
      · simp [h]
        omega
      · have h1 : ¬ ((p.realizedPnl).getD 0 < 0) := by linarith
        simp [h, h1]
        omega

/-- C4 amended: for a long position of size 1 and a SELL signal, exactly
one reduce-only sell order of size 1 is submitted, but `execute_trade`
leaves the persisted trade counters unchanged — there is no increment on
fill.  Win/loss statistics are instead recomputed on demand from the
exchange's closed-position history (lines 1529-1542), where each
position with a close price counts one trade and the sign of its
realized PnL decides winning vs losing; `save_trade_stats` persists the
counters unchanged while stamping `last_updated`. -/
theorem C4_close_order_and_derived_stats :
    (∀ (cfg : TradingConfig) (p : PositionInfo) (conf reason : String)
        (s : TradeStats), cfg.testMode = false → p.side = "long" → p.size = 1 →
      executeTradeWithStats cfg (mkSignal "SELL" reason conf)
        (some (.openPos p)) s = (([⟨"sell", 1, true⟩], .ok), s)) ∧
    (∀ ps : List HistPos,
      tallyTrades ps =
        ((ps.filter fun p => p.closeAvgPx.isSome).length,
         (ps.filter fun p =>
           p.closeAvgPx.isSome && decide (0 < (p.realizedPnl).getD 0)).length,
         (ps.filter fun p =>
           p.closeAvgPx.isSome && decide ((p.realizedPnl).getD 0 < 0)).length)) ∧
    (∀ (s : TradeStats) (now : String),
      (saveTradeStats s now).totalTrades = s.totalTrades ∧
      (saveTradeStats s now).winningTrades = s.winningTrades ∧
      (saveTradeStats s now).losingTrades = s.losingTrades ∧
      (saveTradeStats s now).lastUpdated = some now) := by
  refine ⟨?_, ?_, ?_⟩
  · intro cfg p conf reason s hm hs hz
    simp [executeTradeWithStats, executeTrade, mkSignal, jLookup, jStrEq, hm, hs, hz]
  · intro ps
    simpa [tallyTrades] using tallyTrades_foldl ps (0, 0, 0)
  · intro s now
    exact ⟨rfl, rfl, rfl, rfl⟩

/-- Witness for `C4_close_order_and_derived_stats`: its first component
applied at a concrete long position of size 1. -/
theorem C4_close_order_and_derived_stats_witness :
    liveCfg.testMode = false ∧ longPos1.side = "long" ∧ longPos1.size = 1 ∧
    executeTradeWithStats liveCfg (mkSignal "SELL" "tp" "MEDIUM")
      (some (.openPos longPos1)) ⟨7, 4, 3, none⟩ =
      (([⟨"sell", 1, true⟩], .ok), ⟨7, 4, 3, none⟩) :=
  ⟨rfl, rfl, rfl,
    C4_close_order_and_derived_stats.1 liveCfg longPos1 "MEDIUM" "tp"
      ⟨7, 4, 3, none⟩ rfl rfl rfl⟩

/-! ## C5 — permissive extraction, but no schema validation at all -/

/-- A price observation with an empty trailing-bar list (prompt
construction is unaffected). -/
def samplePd : PriceData :=
  { price := 50000, timestamp := "2024-01-01 00:00:00", high := 50500
    low := 49500, volume := 10, timeframe := "15m", priceChange := 1/2
    klineData := [] }

/-- C5 counterexample: an inference reply whose embedded JSON object has
only a `signal` field — no `confidence`, no `stop_loss` — is parsed
successfully by `analyze_with_deepseek` (lines 732-747): the signal is
returned (with the timestamp stamped in), not rejected, because the code
never checks which fields the parsed object carries. -/
theorem C5_missing_fields_still_succeed :
    (analyzeWithDeepseek true [] [] samplePd none
      (some "Here is my view: \x7b\"signal\":\"BUY\"\x7d thanks")).signal =
      some [("signal", .str "BUY"), ("timestamp", .str "2024-01-01 00:00:00")] ∧
    jLookup [("signal", .str "BUY"), ("timestamp", .str "2024-01-01 00:00:00")]
      "confidence" = none ∧
    jLookup [("signal", .str "BUY"), ("timestamp", .str "2024-01-01 00:00:00")]
      "stop_loss" = none := by
  refine ⟨rfl, rfl, rfl⟩

/-- C5 amended: signal generation extracts the span from the first
opening brace to the last closing brace of the reply and fails (returns
no signal) when no such span exists or the span is not valid JSON; but an
extracted JSON object is accepted as-is, with no required-field check —
a reply whose object lacks `confidence` and `stop_loss` is a success
carrying only the fields present, not a parse failure. -/
theorem C5_extraction_without_validation :
    (∀ r : String,
      strFind r.toList '\x7b' = none ∨ strRfind r.toList '\x7d' = none →
      parseSignalReply r = none) ∧
    parseSignalReply "Here is my view: \x7b\"signal\":\"BUY\"\x7d thanks" =
      some [("signal", .str "BUY")] ∧
    parseSignalReply "a \x7b not json \x7d b" = none := by
  refine ⟨?_, rfl, rfl⟩
  intro r h
  simp only [String.toList] at h
  rcases h with h | h
  · simp [parseSignalReply, String.toList, h]
  · cases h1 : strFind r.data '\x7b' <;>
      simp [parseSignalReply, String.toList, h1, h]

/-- Witness for `C5_extraction_without_validation`: its first component
applied to a brace-free reply. -/
theorem C5_extraction_without_validation_witness :
    strFind ("no json at all").toList '\x7b' = none ∧
    parseSignalReply "no json at all" = none :=
  ⟨rfl, C5_extraction_without_validation.1 "no json at all" (Or.inl rfl)⟩

/-! ## C6 — a zero balance is a successful account-info-only outcome -/

/-- An API numeric field that is absent or resolves to zero. -/
def zeroOpt (o : Option ℚ) : Prop := o = none ∨ o = some 0

/-- Helper: when every balance field of every detail entry is absent or
zero, the detail-level resolution of lines 564-578 yields `(0, 0)`. -/
theorem resolveDetailBalances_zero (details : List BalanceDetail)
    (h : ∀ d ∈ details, zeroOpt d.availBal ∧ zeroOpt d.availEq ∧ zeroOpt d.eq ∧
      zeroOpt d.bal ∧ zeroOpt d.frozenBal) :
    resolveDetailBalances details = (0, 0) := by
  induction details with
  | nil => rfl
  | cons d rest ih =>
    obtain ⟨h1, h2, h3, h4, h5⟩ := h d (List.mem_cons_self _ _)
    by_cases hc : d.ccy = "USDT"
    · rcases h1 with e1 | e1 <;> rcases h2 with e2 | e2 <;> rcases h3 with e3 | e3 <;>
        rcases h4 with e4 | e4 <;> rcases h5 with e5 | e5 <;>
        simp [resolveDetailBalances, hc, e1, e2, e3, e4, e5]
    · rw [resolveDetailBalances, if_neg hc]
      exact ih (fun d' hd' => h d' (List.mem_cons_of_mem _ hd'))

/-- Helper: when every positions entry for the instrument has zero size,
the scan of lines 590-636 finds no open position. -/
theorem findOpenPosition_none (cfg : TradingConfig) (tb fb : ℚ)
    (positionsData : List RawPos)
    (h : ∀ rp ∈ positionsData, rp.instId = "BTC-USDT-SWAP" → (rp.pos).getD 0 = 0) :
    findOpenPosition cfg tb fb positionsData = none := by
  induction positionsData with
  | nil => rfl
  | cons rp rest ih =>
    have ih' := ih (fun rp' h' => h rp' (List.mem_cons_of_mem _ h'))
    by_cases hi : rp.instId = "BTC-USDT-SWAP"
    · have hp := h rp (List.mem_cons_self _ _) hi
      simp [findOpenPosition, hi, hp, ih']
    · simp [findOpenPosition, hi, ih']

/-- C6: when the exchange reports no open position (every entry for the
instrument has zero size) and every balance field — the USDT detail
fields and the account-level `availEq`/`eqUsd` fallbacks — is absent or
zero, `get_current_position` returns the successful account-info-only
dict with zero balances (lines 638-643), not `None`.  Moreover the
detail-level resolution prefers `availBal`, then `availEq`, then `eq`,
reporting zero when all are absent (lines 564-573). -/
theorem C6_zero_balance_success :
    (∀ (cfg : TradingConfig) (positionsData : List RawPos) (acct : AccountData),
      (∀ d ∈ acct.details, zeroOpt d.availBal ∧ zeroOpt d.availEq ∧ zeroOpt d.eq ∧
        zeroOpt d.bal ∧ zeroOpt d.frozenBal) →
      zeroOpt acct.availEq → zeroOpt acct.eqUsd →
      (∀ rp ∈ positionsData, rp.instId = "BTC-USDT-SWAP" → (rp.pos).getD 0 = 0) →
      getCurrentPosition cfg (some positionsData) (some [acct]) =
        some (.accountOnly 0 0)) ∧
    (∀ d : BalanceDetail, d.ccy = "USDT" →
      (resolveDetailBalances [d]).1 = ((d.availBal <|> d.availEq <|> d.eq)).getD 0) := by
  constructor
  · intro cfg positionsData acct hd hae heq hpos
    have hr : resolveDetailBalances acct.details = (0, 0) :=
      resolveDetailBalances_zero _ hd
    have hb : resolveBalances acct = (0, 0) := by
      rcases hae with e1 | e1 <;> rcases heq with e2 | e2 <;>
        simp [resolveBalances, hr, e1, e2]
    simp [getCurrentPosition, hb, findOpenPosition_none cfg 0 0 positionsData hpos]
  · intro d hc
    cases ha : d.availBal <;> cases hb : d.availEq <;> cases he : d.eq <;>
      simp [resolveDetailBalances, hc, ha, hb, he]

/-- Witness for `C6_zero_balance_success`: a USDT detail with every
field absent, an account record with `eqUsd = "0"`, and one zero-size
swap position entry. -/
theorem C6_zero_balance_success_witness :
    getCurrentPosition liveCfg
      (some [{ instId := "BTC-USDT-SWAP", pos := some 0, avgPx := none,
               upl := none, lever := none, markPx := none, imr := none,
               mmr := none, liqPx := none, mgnRatio := none }])
      (some [{ details := [{ ccy := "USDT", availBal := none, availEq := none,
                             eq := none, bal := none, frozenBal := none }],
               availEq := none, eqUsd := some 0 }]) =
      some (.accountOnly 0 0) := by
  refine C6_zero_balance_success.1 liveCfg _ _ ?_ ?_ ?_ ?_
  · intro d hd
    simp only [List.mem_singleton] at hd
    subst hd
    exact ⟨Or.inl rfl, Or.inl rfl, Or.inl rfl, Or.inl rfl, Or.inl rfl⟩
  · exact Or.inl rfl
  · exact Or.inr rfl
  · intro rp hrp _
    simp only [List.mem_singleton] at hrp
    subst hrp
    rfl

/-! ## C7 — the price history is a sliding window of the 20 most recent
observations -/

/-- Helper: folding the append-then-evict operation of lines 657-659
over any observation sequence, starting from the empty history, retains
exactly the suffix of the `bound` most recent observations. -/
theorem pushBounded_foldl {α : Type _} (bound : ℕ) (hb : 0 < bound) (L : List α) :
    L.foldl (pushBounded bound) [] = L.drop (L.length - bound) := by
  induction L using List.reverseRecOn with
  | nil => simp
  | append_singleton l x ih =>
    rw [List.foldl_append, List.foldl_cons, List.foldl_nil, ih]
    rcases lt_or_le l.length bound with h | h
    · have h0 : l.length - bound = 0 := by omega
      have h1 : l.length + 1 - bound = 0 := by omega
      simp only [pushBounded, h0, List.drop_zero, List.length_append,
        List.length_singleton, h1]
      rw [if_neg (by simp; omega)]
    · have hA : (l.drop (l.length - bound)).length = bound := by
        rw [List.length_drop]; omega
      simp only [List.length_append, List.length_singleton]
      rw [pushBounded, if_pos (by
        simp only [List.length_append, List.length_singleton, hA]; omega)]
      rw [← List.drop_one, List.drop_append_of_le_length (by rw [hA]; omega),
        List.drop_drop, List.drop_append_of_le_length (by omega)]
      congr 2
      omega

/-- C7: starting from an empty history, after recording 25 successive
observations the retained price history has length exactly 20 and
consists of the 20 most recent observations (the oldest five evicted);
in general the history is the `length - 20` suffix of the observation
stream, and one recording step never grows a history beyond 20. -/
theorem C7_bounded_price_history :
    (∀ obs : List PriceData,
      obs.foldl (pushBounded 20) [] = obs.drop (obs.length - 20)) ∧
    (∀ obs : List PriceData, obs.length = 25 →
      (obs.foldl (pushBounded 20) []).length = 20 ∧
      obs.foldl (pushBounded 20) [] = obs.drop 5) ∧
    (∀ (h : List PriceData) (x : PriceData), h.length ≤ 20 →
      (pushBounded 20 h x).length ≤ 20) := by
  refine ⟨fun obs => pushBounded_foldl 20 (by norm_num) obs, ?_, ?_⟩
  · intro obs h25
    have := pushBounded_foldl 20 (by norm_num) obs
    rw [h25] at this
    norm_num at this
    refine ⟨?_, this⟩
    rw [this, List.length_drop, h25]
  · intro h x hle
    simp only [pushBounded]
    split
    · simp only [List.length_tail, List.length_append, List.length_singleton]
      omega
    · next hc =>
      simp only [List.length_append, List.length_singleton]
      simp only [not_lt, List.length_append, List.length_singleton] at hc
      omega

/-- Witness for `C7_bounded_price_history` at a concrete stream of 25
observations. -/
theorem C7_bounded_price_history_witness :
    (List.replicate 25 samplePd).length = 25 ∧
    ((List.replicate 25 samplePd).foldl (pushBounded 20) []).length = 20 ∧
    (List.replicate 20 samplePd).length ≤ 20 :=
  ⟨by simp,
   (C7_bounded_price_history.2.1 (List.replicate 25 samplePd) (by simp)).1,
   by simp⟩

/-! ## C8 — percent change over the last two chronological bars -/

/-- C8: on a successful fetch with at least two bars, the reported
percent change is `(close_t - close_prev) / close_prev * 100` over the
two most recent chronological bars (`cur` is the exchange's newest-first
head, `prevC` the bar before it); with a single bar the previous bar is
the current bar itself and the change is exactly 0. -/
theorem C8_percent_change :
    (∀ (cur prevC : Candle) (rest : List Candle) (tf now : String),
      prevC.close ≠ 0 →
      (getBtcOhlcv (some (cur :: prevC :: rest)) tf now).map
          (fun d => d.priceChange) =
        some ((cur.close - prevC.close) / prevC.close * 100)) ∧
    (∀ (c : Candle) (tf now : String), c.close ≠ 0 →
      (getBtcOhlcv (some [c]) tf now).map (fun d => d.priceChange) = some 0) := by
  constructor
  · intro cur prevC rest tf now hc
    have hlast : (cur :: prevC :: rest).reverse.getLast? = some cur := by
      rw [List.getLast?_reverse]; rfl
    have hlen : (cur :: prevC :: rest).reverse.length = rest.length + 2 := by
      simp
    have hidx : (cur :: prevC :: rest).reverse[rest.length]? = some prevC := by
      rw [List.getElem?_reverse (by simp only [List.length_cons]; omega)]
      have h1 : (cur :: prevC :: rest).length - 1 - rest.length = 1 := by
        simp only [List.length_cons]; omega
      rw [h1]
      simp
    simp only [getBtcOhlcv, List.isEmpty_cons, Bool.false_eq_true, if_false, hlast]
    rw [hlen]
    have hcond : (1 : ℕ) < rest.length + 2 := by omega
    rw [if_pos hcond]
    simp only [Nat.add_sub_cancel, hidx, Option.getD_some]
    simp [hc]
  · intro c tf now hc
    simp [getBtcOhlcv, hc]

/-- Witness for `C8_percent_change` at concrete candles: newest close
110 over previous close 100 is a +10% change, and a single bar reports
0%. -/
theorem C8_percent_change_witness :
    ((105 : ℚ) ≠ 0) ∧ ((110 : ℚ) ≠ 0) ∧
    (getBtcOhlcv (some [⟨2, 105, 111, 104, 110, 3⟩, ⟨1, 100, 106, 99, 105, 2⟩])
        "15m" "t").map (fun d => d.priceChange) =
      some ((110 - 105) / 105 * 100) ∧
    (getBtcOhlcv (some [⟨1, 100, 112, 99, 110, 2⟩]) "15m" "t").map
        (fun d => d.priceChange) = some 0 := by
  refine ⟨by norm_num, by norm_num, ?_, ?_⟩
  · exact C8_percent_change.1 ⟨2, 105, 111, 104, 110, 3⟩ ⟨1, 100, 106, 99, 105, 2⟩
      [] "15m" "t" (by norm_num)
  · exact C8_percent_change.2 ⟨1, 100, 112, 99, 110, 2⟩ "15m" "t" (by norm_num)

/-! ## C9 — drawdown statistics -/

/-- The source's `if balance > max: max = balance` update is the binary
maximum. -/
theorem ifMax (a b : ℚ) : (if a < b then b else a) = max a b := by
  rcases lt_or_le a b with h | h
  · rw [if_pos h, max_eq_right h.le]
  · rw [if_neg (not_lt.mpr h), max_eq_left h]

/-- The source's `if dd < max_dd: max_dd = dd` update is the binary
minimum. -/
theorem ifMin (d x : ℚ) : (if x < d then x else d) = min d x := by
  rcases lt_or_le x d with h | h
  · rw [if_pos h, min_eq_right h.le]
  · rw [if_neg (not_lt.mpr h), min_eq_left h]

/-- The drawdown of a balance against itself is zero. -/
theorem ddOf_self (b : ℚ) : ddOf b b = 0 := by
  unfold ddOf
  split <;> simp

/-- The first drawdown of the loop is always zero: `max_balance_seen`
starts at the first balance. -/
theorem ddTrace_head (b0 : ℚ) (rest : List ℚ) :
    ddTrace b0 (b0 :: rest) = 0 :: ddTrace b0 rest := by
  simp [ddTrace, ifMax, max_self, ddOf_self]

/-- The loop of lines 1824-1830 computes the running maximum as a `max`
fold and the most-negative drawdown as a `min` fold over the drawdown
trace. -/
theorem foldl_ddStep (l : List ℚ) : ∀ m d : ℚ,
    l.foldl ddStep (m, d) = (l.foldl max m, (ddTrace m l).foldl min d) := by
  induction l with
  | nil => intro m d; rfl
  | cons b rest ih =>
    intro m d
    simp only [List.foldl_cons, ddTrace, ifMax]
    rw [show ddStep (m, d) b = (max m b, min d (ddOf (max m b) b)) from by
      simp [ddStep, ifMax, ifMin]]
    exact ih (max m b) (min d (ddOf (max m b) b))

/-- A `min` fold is bounded by its initial value. -/
theorem foldl_min_le_init (l : List ℚ) : ∀ d : ℚ, l.foldl min d ≤ d := by
  induction l with
  | nil => intro d; exact le_refl d
  | cons b rest ih =>
    intro d
    exact le_trans (ih (min d b)) (min_le_left d b)

/-- A `min` fold is bounded by every list element. -/
theorem foldl_min_le_mem (l : List ℚ) : ∀ d x : ℚ, x ∈ l → l.foldl min d ≤ x := by
  induction l with
  | nil => intro d x h; simp at h
  | cons b rest ih =>
    intro d x h
    rcases List.mem_cons.mp h with rfl | h2
    · exact le_trans (foldl_min_le_init rest (min d x)) (min_le_right d x)
    · exact ih (min d b) x h2

/-- A `min` fold returns its initial value or a list element. -/
theorem foldl_min_mem (l : List ℚ) : ∀ d : ℚ,
    l.foldl min d = d ∨ l.foldl min d ∈ l := by
  induction l with
  | nil => intro d; exact Or.inl rfl
  | cons b rest ih =>
    intro d
    rcases ih (min d b) with h | h
    · rcases min_choice d b with h2 | h2
      · exact Or.inl (by rw [List.foldl_cons, h, h2])
      · exact Or.inr (by
          rw [List.foldl_cons, h, h2]
          exact List.mem_cons_self _ _)
    · exact Or.inr (List.mem_cons_of_mem b h)

/-- The running maximum at index `i` is the `max` fold over the prefix
up to and including `i`. -/
theorem mTrace_getElem (l : List ℚ) : ∀ (m : ℚ) (i : ℕ), i < l.length →
    (mTrace m l)[i]? = some ((l.take (i + 1)).foldl max m) := by
  induction l with
  | nil => intro m i h; simp at h
  | cons b rest ih =>
    intro m i h
    cases i with
    | zero => simp [mTrace, ifMax]
    | succ i =>
      simp only [mTrace, ifMax, List.getElem?_cons_succ, List.take_succ_cons,
        List.foldl_cons]
      exact ih (max m b) i (by simpa using h)

/-- The drawdown at index `i` is `ddOf` of the running maximum and the
balance at that index. -/
theorem ddTrace_getElem (l : List ℚ) : ∀ (m : ℚ) (i : ℕ) (bi mi : ℚ),
    l[i]? = some bi → (mTrace m l)[i]? = some mi →
    (ddTrace m l)[i]? = some (ddOf mi bi) := by
  induction l with
  | nil => intro m i bi mi h1 _; simp at h1
  | cons b rest ih =>
    intro m i bi mi h1 h2
    cases i with
    | zero =>
      simp only [List.getElem?_cons_zero, Option.some_inj] at h1
      simp only [mTrace, ifMax, List.getElem?_cons_zero, Option.some_inj] at h2
      simp [ddTrace, ifMax, ← h1, ← h2]
    | succ i =>
      simp only [List.getElem?_cons_succ] at h1
      simp only [mTrace, ifMax, List.getElem?_cons_succ] at h2
      simp only [ddTrace, ifMax, List.getElem?_cons_succ]
      exact ih (max m b) i bi mi h1 h2

/-- Lines 1820-1837 as a single `min` fold: the reported max drawdown is
the `min` fold, starting at 0, over the per-index drawdowns followed by
the live-balance drawdown. -/
theorem maxDrawdownCalc_foldl (b0 current : ℚ) (rest : List ℚ) :
    maxDrawdownCalc (b0 :: rest) current =
      (ddTrace b0 (b0 :: rest) ++
        [ddOf (max ((b0 :: rest).foldl max b0) current) current]).foldl min 0 := by
  simp only [maxDrawdownCalc]
  rw [foldl_ddStep (b0 :: rest) b0 0]
  simp only [ifMax, ifMin, List.foldl_append, List.foldl_cons, List.foldl_nil]

/-- C9: the running maximum at each index of the equity series is the
maximum balance seen up to that index; each recorded drawdown equals
`(balance - running_max) / running_max * 100` (when the running maximum
is positive); and the reported max drawdown is the most negative value
among the per-index drawdowns and the live-balance drawdown — it bounds
all of them from below and is itself one of them.  For the series
`[100, 120, 90, 130]` the running-max sequence is `[100, 120, 120, 130]`
and the max drawdown is `(90 - 120) / 120 = -25` percent. -/
theorem C9_drawdown_correct :
    (mTrace 100 [100, 120, 90, 130] = [100, 120, 120, 130] ∧
     maxDrawdownCalc [100, 120, 90, 130] 130 = -25) ∧
    (∀ (b0 : ℚ) (rest : List ℚ) (i : ℕ), i < (b0 :: rest).length →
      (mTrace b0 (b0 :: rest))[i]? =
        some (((b0 :: rest).take (i + 1)).foldl max b0)) ∧
    (∀ (b0 : ℚ) (rest : List ℚ) (i : ℕ) (bi m : ℚ),
      (b0 :: rest)[i]? = some bi → (mTrace b0 (b0 :: rest))[i]? = some m →
      0 < m →
      (ddTrace b0 (b0 :: rest))[i]? = some ((bi - m) / m * 100)) ∧
    (∀ (b0 current : ℚ) (rest : List ℚ),
      (∀ x ∈ ddTrace b0 (b0 :: rest) ++
          [ddOf (max ((b0 :: rest).foldl max b0) current) current],
        maxDrawdownCalc (b0 :: rest) current ≤ x) ∧
      maxDrawdownCalc (b0 :: rest) current ∈
        ddTrace b0 (b0 :: rest) ++
          [ddOf (max ((b0 :: rest).foldl max b0) current) current]) := by
  refine ⟨⟨by norm_num [mTrace], by norm_num [maxDrawdownCalc, ddStep, ddOf]⟩,
    ?_, ?_, ?_⟩
  · intro b0 rest i h
    exact mTrace_getElem (b0 :: rest) b0 i h
  · intro b0 rest i bi m h1 h2 hm
    rw [ddTrace_getElem (b0 :: rest) b0 i bi m h1 h2]
    rw [ddOf, if_pos hm]
  · intro b0 current rest
    have hmd := maxDrawdownCalc_foldl b0 current rest
    constructor
    · intro x hx
      rw [hmd]
      exact foldl_min_le_mem _ 0 x hx
    · rw [hmd]
      rcases foldl_min_mem (ddTrace b0 (b0 :: rest) ++
          [ddOf (max ((b0 :: rest).foldl max b0) current) current]) 0 with h | h
      · rw [h, ddTrace_head]
        simp
      · exact h

/-- Witness for `C9_drawdown_correct`: its quantified components applied
at index 2 of the documented series `[100, 120, 90, 130]`. -/
theorem C9_drawdown_correct_witness :
    (mTrace 100 [100, 120, 90, 130])[2]? =
      some (([100, 120, 90, 130].take 3).foldl max (100 : ℚ)) ∧
    (ddTrace 100 [100, 120, 90, 130])[2]? = some (((90 : ℚ) - 120) / 120 * 100) :=
  ⟨C9_drawdown_correct.2.1 100 [120, 90, 130] 2 (by norm_num),
   C9_drawdown_correct.2.2.1 100 [120, 90, 130] 2 90 120 (by norm_num)
     (by norm_num [mTrace]) (by norm_num)⟩

/-! ## C10 — the price history grows before the inference call; the
signal history only on a successful parse -/

/-- C10: whenever `analyze_with_deepseek` runs with a configured
inference client, the price observation is appended to the bounded price
history unconditionally — the append (lines 657-659) precedes the
inference call, so the history has grown even when the call, the parse,
or the prompt construction fails and no signal is produced — while the
signal history is appended (bound 30) exactly when a signal is
returned. -/
theorem C10_history_nonatomic (ph : List PriceData) (sh : List JsonObj)
    (pd : PriceData) (posFetch : Option PosFetch) (reply : Option String) :
    (analyzeWithDeepseek true ph sh pd posFetch reply).priceHistory =
      pushBounded 20 ph pd ∧
    ((analyzeWithDeepseek true ph sh pd posFetch reply).signal = none →
      (analyzeWithDeepseek true ph sh pd posFetch reply).signalHistory = sh) ∧
    (∀ s, (analyzeWithDeepseek true ph sh pd posFetch reply).signal = some s →
      (analyzeWithDeepseek true ph sh pd posFetch reply).signalHistory =
        pushBounded 30 sh s) := by
  unfold analyzeWithDeepseek
  simp only [Bool.true_eq_false, if_false]
  repeat' split
  all_goals
    first
    | exact ⟨rfl, fun _ => rfl, fun s hs => by simp at hs⟩
    | exact ⟨rfl, fun h => by simp at h, fun s hs => by
        injection hs with e
        rw [← e]⟩

/-- Witness for `C10_history_nonatomic`: a failing parse (no JSON in the
reply) still grows the price history and leaves the signal history
alone. -/
theorem C10_history_nonatomic_witness :
    (analyzeWithDeepseek true [] [] samplePd none (some "no json")).signal =
      none ∧
    (analyzeWithDeepseek true [] [] samplePd none
      (some "no json")).priceHistory = pushBounded 20 [] samplePd ∧
    (analyzeWithDeepseek true [] [] samplePd none
      (some "no json")).signalHistory = [] :=
  ⟨rfl,
   (C10_history_nonatomic [] [] samplePd none (some "no json")).1,
   (C10_history_nonatomic [] [] samplePd none (some "no json")).2.1 rfl⟩

end App
